import Mathlib

/-!
Shallow embedding of the document Q&A extraction core (src/app.py).
Python strings are modelled as lists of characters, bytes as `Fin 256`,
external library calls (pdfplumber, PyPDF2, pikepdf, pdf2image, PaddleOCR,
python-docx, python-pptx, openpyxl, BeautifulSoup, striprtf, ebooklib) as
function parameters gathered in a `Libs` record: each returns `none` where
the Python call would raise, and otherwise the structured data the
extractor consumes.
-/

/-- A Python string, modelled as its list of characters. -/
abbrev PyStr := List Char

/-- A byte of input data. -/
abbrev Byte := Fin 256

/-- Raw file content, as Python `bytes`. -/
abbrev Bytes := List Byte

/-- A rasterized page image (abstract identity of the transient PNG). -/
abbrev Img := Nat

/-- Coerce a Lean string literal to the Python-string model. -/
def pys (s : String) : PyStr := s.toList

/-- The newline character. -/
def nlc : Char := '\n'

/-- The blank-line separator `"\n\n"` used to join pages/paragraphs. -/
def nn : PyStr := pys "\n\n"

/-- ASCII whitespace, as recognized by Python `str.strip()` (the Unicode
whitespace code points beyond ASCII are abstracted away). -/
def pyIsSpace (c : Char) : Bool :=
  c = ' ' || c = '\t' || c = '\n' || c = '\r' || c = '\x0b' || c = '\x0c'

/-- Python `str.strip()`: drop leading and trailing whitespace. -/
def pyStrip (s : PyStr) : PyStr :=
  ((s.dropWhile pyIsSpace).reverse.dropWhile pyIsSpace).reverse

/-- Python `str.split(c)` for a one-character separator: splits at every
occurrence, keeping empty pieces. -/
def pySplit (c : Char) : PyStr → List PyStr
  | [] => [[]]
  | x :: xs =>
    if x = c then [] :: pySplit c xs
    else
      match pySplit c xs with
      | [] => [[x]]
      | h :: t => (x :: h) :: t

/-- Python `sep.join(pieces)`. -/
def pyJoin (sep : PyStr) : List PyStr → PyStr
  | [] => []
  | [x] => x
  | x :: xs => x ++ sep ++ pyJoin sep xs

/-- Python `bytes.decode('latin-1')`: total, each byte maps to the code
point of the same value. -/
def latin1Decode (bs : Bytes) : PyStr :=
  bs.map fun b => Char.ofNat b.val

/-- Continuation byte of a UTF-8 sequence (`0x80..0xBF`). -/
def isCont (b : Byte) : Bool :=
  decide (128 ≤ b.val) && decide (b.val ≤ 191)

/-- Admissible second byte of a three-byte UTF-8 sequence led by `n`
(excludes overlong forms after `0xE0` and surrogates after `0xED`). -/
def utf8Snd3 (n : Nat) (b1 : Byte) : Bool :=
  if n = 224 then decide (160 ≤ b1.val) && decide (b1.val ≤ 191)
  else if n = 237 then decide (128 ≤ b1.val) && decide (b1.val ≤ 159)
  else isCont b1

/-- Admissible second byte of a four-byte UTF-8 sequence led by `n`
(excludes overlong forms after `0xF0` and values past `U+10FFFF` after
`0xF4`). -/
def utf8Snd4 (n : Nat) (b1 : Byte) : Bool :=
  if n = 240 then decide (144 ≤ b1.val) && decide (b1.val ≤ 191)
  else if n = 244 then decide (128 ≤ b1.val) && decide (b1.val ≤ 143)
  else isCont b1

/-- Python `bytes.decode('utf-8')`: strict UTF-8 decoding, `none` when the
Python call would raise `UnicodeDecodeError`. -/
def utf8Decode : Bytes → Option PyStr
  | [] => some []
  | b :: rest =>
    let n := b.val
    if n < 128 then
      (utf8Decode rest).map fun cs => Char.ofNat n :: cs
    else if 194 ≤ n ∧ n ≤ 223 then
      match rest with
      | b1 :: rest2 =>
        if isCont b1 then
          (utf8Decode rest2).map fun cs =>
            Char.ofNat ((n - 192) * 64 + (b1.val - 128)) :: cs
        else none
      | [] => none
    else if 224 ≤ n ∧ n ≤ 239 then
      match rest with
      | b1 :: b2 :: rest3 =>
        if utf8Snd3 n b1 ∧ isCont b2 then
          (utf8Decode rest3).map fun cs =>
            Char.ofNat ((n - 224) * 4096 + (b1.val - 128) * 64 + (b2.val - 128)) :: cs
        else none
      | _ => none
    else if 240 ≤ n ∧ n ≤ 244 then
      match rest with
      | b1 :: b2 :: b3 :: rest4 =>
        if utf8Snd4 n b1 ∧ isCont b2 ∧ isCont b3 then
          (utf8Decode rest4).map fun cs =>
            Char.ofNat ((n - 240) * 262144 + (b1.val - 128) * 4096
              + (b2.val - 128) * 64 + (b3.val - 128)) :: cs
        else none
      | _ => none
    else none

/-- The external-library surface of `app.py`, as abstract functions.
`none` models the Python call raising. -/
structure Libs where
  /-- `pdfplumber.open(...).pages` with `page.extract_text()` per page;
  `none` when opening or extraction raises, otherwise the per-page
  `extract_text()` results (`none` for a page whose result is `None`). -/
  plumber : Bytes → Option (List (Option PyStr))
  /-- `PyPDF2.PdfReader(..., strict=False).pages`, same shape. -/
  pypdf : Bytes → Option (List (Option PyStr))
  /-- `pikepdf.open` followed by `pdf.save`: the repaired byte content, or
  `none` when repair raises. -/
  pikepdf : Bytes → Option Bytes
  /-- `pdf2image.convert_from_bytes(..., dpi=200)`: the rasterized page
  images, or `none` when rasterization raises. -/
  convert : Bytes → Option (List Img)
  /-- One `ocr_model.ocr(path, cls=True)` call on a page image: the
  recognized line texts (`line[1][0]` for the kept lines, empty when the
  result is falsy), or `none` when recognition raises. -/
  ocrPage : Img → Option (List PyStr)
  /-- Whether `os.unlink` on the page's transient file succeeds. -/
  unlinkOk : Img → Bool
  /-- `docx.Document(...).paragraphs` texts, or `none` when opening raises. -/
  docxParas : Bytes → Option (List PyStr)
  /-- `pptx.Presentation(...)`: per slide, the texts of shapes having a
  `text` attribute; `none` when opening raises. -/
  pptxSlides : Bytes → Option (List (List PyStr))
  /-- `openpyxl.load_workbook(...)`: per sheet its name and its rows of
  stringified cells; `none` when opening raises. -/
  xlsxSheets : Bytes → Option (List (PyStr × List (List PyStr)))
  /-- `BeautifulSoup(html).get_text(separator='\n', strip=True)`. -/
  htmlText : PyStr → Option PyStr
  /-- `striprtf.rtf_to_text`. -/
  rtfToText : PyStr → Option PyStr
  /-- `ebooklib.epub.read_epub`: per content document, its soup text;
  `none` when opening raises. -/
  epubChapters : Bytes → Option (List PyStr)

/-- `extract_from_txt`: UTF-8 with Latin-1 fallback, whole content as the
single section. -/
def extract_from_txt (bs : Bytes) : Option (PyStr × List PyStr) :=
  match utf8Decode bs with
  | some t => some (t, [t])
  | none => some (latin1Decode bs, [latin1Decode bs])

/-- `extract_from_csv`: UTF-8 with Latin-1 fallback, sectioned by line. -/
def extract_from_csv (bs : Bytes) : Option (PyStr × List PyStr) :=
  match utf8Decode bs with
  | some t => some (t, pySplit nlc t)
  | none => some (latin1Decode bs, pySplit nlc (latin1Decode bs))

/-- `extract_from_md`: UTF-8 only, whole content as the single section. -/
def extract_from_md (bs : Bytes) : Option (PyStr × List PyStr) :=
  match utf8Decode bs with
  | some t => some (t, [t])
  | none => none

/-- `extract_from_docx`: non-blank paragraphs joined by a blank line. -/
def extract_from_docx (L : Libs) (bs : Bytes) : Option (PyStr × List PyStr) :=
  match L.docxParas bs with
  | none => none
  | some ps =>
    let paragraphs := ps.filter fun p => !(pyStrip p).isEmpty
    some (pyJoin nn paragraphs, paragraphs)

/-- `extract_from_pptx`: shape texts joined by newline per slide, slides
joined by a blank line. -/
def extract_from_pptx (L : Libs) (bs : Bytes) : Option (PyStr × List PyStr) :=
  match L.pptxSlides bs with
  | none => none
  | some slides =>
    let slides_text := slides.map (pyJoin [nlc])
    some (pyJoin nn slides_text, slides_text)

/-- One worksheet's text: `"Sheet: <name>\n"` plus its non-blank rows,
cells tab-joined, rows newline-joined. -/
def sheetText (sh : PyStr × List (List PyStr)) : PyStr :=
  let rows := (sh.2.map (pyJoin ['\t'])).filter fun r => !(pyStrip r).isEmpty
  pys "Sheet: " ++ sh.1 ++ [nlc] ++ pyJoin [nlc] rows

/-- `extract_from_xlsx`: one section per worksheet. -/
def extract_from_xlsx (L : Libs) (bs : Bytes) : Option (PyStr × List PyStr) :=
  match L.xlsxSheets bs with
  | none => none
  | some sheets =>
    let sheets_text := sheets.map sheetText
    some (pyJoin nn sheets_text, sheets_text)

/-- `extract_from_html`: UTF-8 decode, soup text, non-blank lines as
sections joined by a blank line. -/
def extract_from_html (L : Libs) (bs : Bytes) : Option (PyStr × List PyStr) :=
  match utf8Decode bs with
  | none => none
  | some h =>
    match L.htmlText h with
    | none => none
    | some text =>
      let paragraphs := (pySplit nlc text).filter fun p => !(pyStrip p).isEmpty
      some (pyJoin nn paragraphs, paragraphs)

/-- `extract_from_rtf`: UTF-8 decode, control words stripped, sectioned by
line. -/
def extract_from_rtf (L : Libs) (bs : Bytes) : Option (PyStr × List PyStr) :=
  match utf8Decode bs with
  | none => none
  | some rt =>
    match L.rtfToText rt with
    | none => none
    | some text => some (text, pySplit nlc text)

/-- `extract_from_epub`: content documents with non-blank text, joined by
a blank line. -/
def extract_from_epub (L : Libs) (bs : Bytes) : Option (PyStr × List PyStr) :=
  match L.epubChapters bs with
  | none => none
  | some chs =>
    let chapters := chs.filter fun t => !(pyStrip t).isEmpty
    some (pyJoin nn chapters, chapters)

/-- The pages kept by a direct-extraction tier: `if text:` keeps a page's
`extract_text()` result when it is neither `None` nor empty. -/
def truthyPages (raw : List (Option PyStr)) : List PyStr :=
  raw.filterMap fun o =>
    match o with
    | some t => if t = [] then none else some t
    | none => none

/-- The shared success test of every PDF tier:
`if pages and len(''.join(pages).strip()) > 50: return '\n\n'.join(pages), pages, True`. -/
def checkPages (pages : List PyStr) : Option (PyStr × List PyStr) :=
  if pages ≠ [] ∧ 50 < (pyStrip (pyJoin [] pages)).length then
    some (pyJoin nn pages, pages)
  else none

/-- One direct-extraction tier (pdfplumber or PyPDF2) of
`extract_from_pdf`: parse, keep truthy page texts, test the threshold. -/
def directTier (parse : Bytes → Option (List (Option PyStr))) (bs : Bytes) :
    Option (PyStr × List PyStr) :=
  (parse bs).bind fun raw => checkPages (truthyPages raw)

/-- The per-page OCR loop of `extract_from_pdf`. For each image a
transient file is created; recognition raising aborts the loop (the
pending `os.unlink` never runs, so that file leaks and all collected
pages are discarded by the enclosing `except`); on normal return the page
text is the newline-join of the recognized lines and `os.unlink` is
attempted with its own error swallowed. Returns the page texts (or `none`
on abort) and the transient files left undeleted. -/
def ocrLoop (ocrP : Img → Option (List PyStr)) (uok : Img → Bool) :
    List Img → Option (List PyStr) × List Img
  | [] => (some [], [])
  | img :: rest =>
    match ocrP img with
    | none => (none, [img])
    | some lines =>
      let leaked := if uok img then [] else [img]
      match ocrLoop ocrP uok rest with
      | (none, l) => (none, leaked ++ l)
      | (some pages, l) => (some (pyJoin [nlc] lines :: pages), leaked ++ l)

/-- The OCR tier of `extract_from_pdf`: rasterize, run the per-page loop,
test the threshold. Also reports the leaked transient files. -/
def ocrTier (L : Libs) (bs : Bytes) :
    Option (PyStr × List PyStr) × List Img :=
  match L.convert bs with
  | none => (none, [])
  | some imgs =>
    match ocrLoop L.ocrPage L.unlinkOk imgs with
    | (none, leaked) => (none, leaked)
    | (some pages, leaked) => (checkPages pages, leaked)

/-- `extract_from_pdf`: pdfplumber, then PyPDF2, then pikepdf repair with
a pdfplumber retry on the repaired bytes, then OCR on the original bytes.
The second component is the set of transient OCR files left undeleted. -/
def extract_from_pdf (L : Libs) (bs : Bytes) :
    Option (PyStr × List PyStr) × List Img :=
  match directTier L.plumber bs with
  | some r => (some r, [])
  | none =>
    match directTier L.pypdf bs with
    | some r => (some r, [])
    | none =>
      match (L.pikepdf bs).bind fun rb => directTier L.plumber rb with
      | some r => (some r, [])
      | none => ocrTier L bs

/-- `filename.lower().split('.')[-1] if '.' in filename else ''`. -/
def extOf (f : PyStr) : PyStr :=
  if f.contains '.' then (pySplit '.' (f.map Char.toLower)).getLastD []
  else []

/-- The `extractors` dispatch table of `extract_text_from_document`, in
insertion order: extension key, canonical format label, extractor. -/
def extractorTable (L : Libs) :
    List (PyStr × PyStr × (Bytes → Option (PyStr × List PyStr))) :=
  [ (pys "txt", pys "TXT", extract_from_txt),
    (pys "text", pys "TXT", extract_from_txt),
    (pys "docx", pys "DOCX", extract_from_docx L),
    (pys "doc", pys "DOCX", extract_from_docx L),
    (pys "pptx", pys "PPTX", extract_from_pptx L),
    (pys "ppt", pys "PPTX", extract_from_pptx L),
    (pys "xlsx", pys "XLSX", extract_from_xlsx L),
    (pys "xls", pys "XLSX", extract_from_xlsx L),
    (pys "csv", pys "CSV", extract_from_csv),
    (pys "html", pys "HTML", extract_from_html L),
    (pys "htm", pys "HTML", extract_from_html L),
    (pys "rtf", pys "RTF", extract_from_rtf L),
    (pys "epub", pys "EPUB", extract_from_epub L),
    (pys "md", pys "Markdown", extract_from_md),
    (pys "markdown", pys "Markdown", extract_from_md),
    (pys "pdf", pys "PDF", fun b => (extract_from_pdf L b).fst) ]

/-- Dictionary lookup `extractors[ext]` guarded by `ext in extractors`. -/
def tblLookup (tbl : List (PyStr × PyStr × (Bytes → Option (PyStr × List PyStr))))
    (key : PyStr) : Option (PyStr × (Bytes → Option (PyStr × List PyStr))) :=
  match tbl with
  | [] => none
  | (k, v) :: t => if k = key then some v else tblLookup t key

/-- The fallback loop over `extractors.values()`: first successful
extractor wins, together with its label. -/
def firstSuccess (tbl : List (PyStr × PyStr × (Bytes → Option (PyStr × List PyStr))))
    (bs : Bytes) : Option ((PyStr × List PyStr) × PyStr) :=
  match tbl with
  | [] => none
  | (_, label, ex) :: t =>
    match ex bs with
    | some r => some (r, label)
    | none => firstSuccess t bs

/-- The auto-detection fallback of `extract_text_from_document`. -/
def fallbackScan (L : Libs) (bs : Bytes) :
    Option (PyStr × List PyStr) × PyStr :=
  match firstSuccess (extractorTable L) bs with
  | some (r, label) => (some r, label ++ pys " (auto-detected)")
  | none => (none, pys "failed")

/-- `extract_text_from_document`: extension dispatch, then the fallback
scan when the extension is unknown or its extractor fails. Returns the
optional `(full_text, sections)` and the method label. -/
def extract_text_from_document (L : Libs) (filename : PyStr) (bs : Bytes) :
    Option (PyStr × List PyStr) × PyStr :=
  match tblLookup (extractorTable L) (extOf filename) with
  | some (label, ex) =>
    match ex bs with
    | some r => (some r, label)
    | none => fallbackScan L bs
  | none => fallbackScan L bs

/-- The truncation marker `"\n\n[... truncated ...]"`. -/
def truncMarker : PyStr := pys "\n\n[... truncated ...]"

/-- The context preparation inside `answer_question` (single-document
mode): truncate to 20,000 characters and append the marker when over
budget, otherwise pass the context through unchanged. -/
def assembleContext (context : PyStr) : PyStr :=
  if 20000 < context.length then context.take 20000 ++ truncMarker
  else context

/-- One per-document block of `answer_question_multi_doc`:
`f"\n\n=== {filename} ===\n{context[:5000]}\n"`. -/
def docBlock (fc : PyStr × PyStr) : PyStr :=
  pys "\n\n=== " ++ fc.1 ++ pys " ===\n" ++ fc.2.take 5000 ++ [nlc]

/-- The context preparation inside `answer_question_multi_doc`: append
the per-document blocks in order, then truncate the combined string when
over the 20,000-character budget. -/
def assembleMulti (docs : List (PyStr × PyStr)) : PyStr :=
  let combined := docs.foldl (fun acc fc => acc ++ docBlock fc) []
  if 20000 < combined.length then combined.take 20000 ++ truncMarker
  else combined

/-- One value of `st.session_state.processed_files`. -/
structure Entry where
  full_text : PyStr
  pages : List PyStr
  num_pages : Nat
  method : PyStr
deriving DecidableEq

/-- The processed-document store: Python dict keyed by filename, in
insertion order. -/
abbrev Store := List (PyStr × Entry)

/-- Python dict assignment `d[k] = v`: update in place when the key
exists, append otherwise. -/
def storeInsert : Store → PyStr → Entry → Store
  | [], k, v => [(k, v)]
  | (k', v') :: t, k, v =>
    if k' = k then (k, v) :: t else (k', v') :: storeInsert t k v

/-- Python `k in d`. -/
def hasKey (st : Store) (k : PyStr) : Bool :=
  st.any fun e => e.1 = k

/-- Python `d[k]` as an option. -/
def lookupStore : Store → PyStr → Option Entry
  | [], _ => none
  | (k', v) :: t, k => if k' = k then some v else lookupStore t k

/-- One iteration of the processing loop: extract the file and insert an
entry when extraction succeeds with non-empty text
(`if success and full_text:`). -/
def processOne (L : Libs) (acc : Store) (f : PyStr × Bytes) : Store :=
  match extract_text_from_document L f.1 f.2 with
  | (some (t, ps), m) =>
    if t ≠ [] then storeInsert acc f.1 ⟨t, ps, ps.length, m⟩ else acc
  | (none, _) => acc

/-- The processing loop behind the "Process All Files" button: filter the
uploads to the not-yet-processed filenames, then process each in order. -/
def processUpload (L : Libs) (st : Store) (files : List (PyStr × Bytes)) : Store :=
  (files.filter fun f => !(hasKey st f.1)).foldl (processOne L) st

/-- A whole session: batches submitted one after another. -/
def processSession (L : Libs) (st : Store) (batches : List (List (PyStr × Bytes))) : Store :=
  batches.foldl (processUpload L) st

/-- First defined value in a list of tier outcomes. -/
def firstSome (l : List (Option (PyStr × List PyStr))) : Option (PyStr × List PyStr) :=
  l.findSome? id

/-- Modelled from the spec: the seven-tier PDF pipeline the specification
describes (sections 4.3 and the claim): direct tiers, repair A (pikepdf)
with both direct tiers re-run, an independent repair B (absent from the
source, so taken as a parameter) with both direct tiers re-run, OCR on the
original bytes, then OCR on each repaired variant. -/
def specPdfPipeline (L : Libs) (repairB : Bytes → Option Bytes) (bs : Bytes) :
    Option (PyStr × List PyStr) :=
  firstSome
    [ directTier L.plumber bs,
      directTier L.pypdf bs,
      (L.pikepdf bs).bind fun rb =>
        firstSome [directTier L.plumber rb, directTier L.pypdf rb],
      (repairB bs).bind fun rb =>
        firstSome [directTier L.plumber rb, directTier L.pypdf rb],
      (ocrTier L bs).fst,
      (L.pikepdf bs).bind fun rb => (ocrTier L rb).fst,
      (repairB bs).bind fun rb => (ocrTier L rb).fst ]

lemma pyJoin_nil (sep : PyStr) : pyJoin sep [] = [] := rfl

lemma pyJoin_single (sep : PyStr) (x : PyStr) : pyJoin sep [x] = x := rfl

lemma pyJoin_cons_cons (sep x y : PyStr) (ys : List PyStr) :
    pyJoin sep (x :: y :: ys) = x ++ sep ++ pyJoin sep (y :: ys) := rfl

lemma pyStrip_cons_of_ws (c : Char) (s : PyStr) (hc : pyIsSpace c = true) :
    pyStrip (c :: s) = pyStrip s := by
  simp [pyStrip, List.dropWhile_cons, hc]

lemma exists_nonws_of_pyStrip_ne {s : PyStr} (h : pyStrip s ≠ []) :
    ∃ c ∈ s, pyIsSpace c = false := by
  induction s with
  | nil => simp [pyStrip] at h
  | cons a t ih =>
    cases ha : pyIsSpace a with
    | true =>
      rw [pyStrip_cons_of_ws a t ha] at h
      obtain ⟨c, hc, hcf⟩ := ih h
      exact ⟨c, List.mem_cons_of_mem _ hc, hcf⟩
    | false => exact ⟨a, List.mem_cons_self a t, ha⟩

lemma dropWhile_append_single_ne (l : List Char) (a : Char)
    (ha : pyIsSpace a = false) :
    List.dropWhile pyIsSpace (l ++ [a]) ≠ [] := by
  induction l with
  | nil => simp [List.dropWhile_cons, ha]
  | cons x xs ih =>
    rw [List.cons_append, List.dropWhile_cons]
    split
    · exact ih
    · simp

lemma pyStrip_ne_of_exists {s : PyStr} (h : ∃ c ∈ s, pyIsSpace c = false) :
    pyStrip s ≠ [] := by
  induction s with
  | nil => simp at h
  | cons a t ih =>
    obtain ⟨c, hc, hcf⟩ := h
    cases ha : pyIsSpace a with
    | true =>
      rw [pyStrip_cons_of_ws a t ha]
      apply ih
      rcases List.mem_cons.mp hc with rfl | hct
      · rw [ha] at hcf; cases hcf
      · exact ⟨c, hct, hcf⟩
    | false =>
      unfold pyStrip
      rw [List.dropWhile_cons, if_neg (by simp [ha])]
      rw [List.reverse_cons]
      intro hemp
      rw [List.reverse_eq_nil_iff] at hemp
      exact dropWhile_append_single_ne t.reverse a ha hemp

lemma mem_pyJoin_of_mem (sep : PyStr) {pages : List PyStr} {p : PyStr}
    (hp : p ∈ pages) {c : Char} (hc : c ∈ p) : c ∈ pyJoin sep pages := by
  induction pages with
  | nil => simp at hp
  | cons x xs ih =>
    rcases List.mem_cons.mp hp with rfl | hxs
    · cases xs with
      | nil => simpa [pyJoin_single] using hc
      | cons y ys =>
        rw [pyJoin_cons_cons]
        simp only [List.mem_append]
        exact Or.inl (Or.inl hc)
    · cases xs with
      | nil => simp at hxs
      | cons y ys =>
        rw [pyJoin_cons_cons]
        simp only [List.mem_append]
        exact Or.inr (ih hxs)

lemma exists_of_mem_pyJoin_nil {pages : List PyStr} {c : Char}
    (hc : c ∈ pyJoin [] pages) : ∃ p ∈ pages, c ∈ p := by
  induction pages with
  | nil => simp [pyJoin_nil] at hc
  | cons x xs ih =>
    cases xs with
    | nil =>
      exact ⟨x, List.mem_cons_self x [], by simpa [pyJoin_single] using hc⟩
    | cons y ys =>
      rw [pyJoin_cons_cons] at hc
      simp only [List.append_nil, List.mem_append] at hc
      rcases hc with hx | hrest
      · exact ⟨x, List.mem_cons_self x (y :: ys), hx⟩
      · obtain ⟨p, hp, hcp⟩ := ih hrest
        exact ⟨p, List.mem_cons_of_mem _ hp, hcp⟩

lemma pyStrip_nn_pos {pages : List PyStr}
    (h : 50 < (pyStrip (pyJoin [] pages)).length) :
    0 < (pyStrip (pyJoin nn pages)).length := by
  have h1 : pyStrip (pyJoin [] pages) ≠ [] := by
    intro he; rw [he] at h; simp at h
  obtain ⟨c, hc, hcf⟩ := exists_nonws_of_pyStrip_ne h1
  obtain ⟨p, hp, hcp⟩ := exists_of_mem_pyJoin_nil hc
  have hmem : c ∈ pyJoin nn pages := mem_pyJoin_of_mem nn hp hcp
  have h2 : pyStrip (pyJoin nn pages) ≠ [] :=
    pyStrip_ne_of_exists ⟨c, hmem, hcf⟩
  exact List.length_pos.mpr h2

lemma pySplit_ne_nil (c : Char) (s : PyStr) : pySplit c s ≠ [] := by
  induction s with
  | nil => simp [pySplit]
  | cons x xs ih =>
    by_cases hx : x = c
    · simp [pySplit, hx]
    · rw [pySplit, if_neg hx]
      cases hsp : pySplit c xs <;> simp

lemma pyJoin_pySplit (c : Char) (s : PyStr) :
    pyJoin [c] (pySplit c s) = s := by
  induction s with
  | nil => rfl
  | cons x xs ih =>
    by_cases hx : x = c
    · subst hx
      rw [pySplit, if_pos rfl]
      obtain ⟨h, t, ht⟩ : ∃ h t, pySplit x xs = h :: t := by
        cases hsp : pySplit x xs with
        | nil => exact absurd hsp (pySplit_ne_nil x xs)
        | cons h t => exact ⟨h, t, rfl⟩
      rw [ht]
      rw [pyJoin_cons_cons]
      rw [ht] at ih
      rw [ih]
      simp
    · rw [pySplit, if_neg hx]
      obtain ⟨h, t, ht⟩ : ∃ h t, pySplit c xs = h :: t := by
        cases hsp : pySplit c xs with
        | nil => exact absurd hsp (pySplit_ne_nil c xs)
        | cons h t => exact ⟨h, t, rfl⟩
      rw [ht]
      rw [ht] at ih
      cases t with
      | nil =>
        rw [pyJoin_single] at ih
        simp only [pyJoin_single]
        rw [ih]
      | cons t0 ts =>
        rw [pyJoin_cons_cons]
        rw [pyJoin_cons_cons] at ih
        rw [← ih]
        simp

lemma checkPages_eq_some {pages : List PyStr} {t : PyStr} {secs : List PyStr}
    (h : checkPages pages = some (t, secs)) :
    t = pyJoin nn pages ∧ secs = pages ∧ pages ≠ [] ∧
      50 < (pyStrip (pyJoin [] pages)).length := by
  unfold checkPages at h
  split at h
  · next hcond =>
    injection h with h1
    injection h1 with h2 h3
    exact ⟨h2.symm, h3.symm, hcond.1, hcond.2⟩
  · cases h

lemma directTier_eq_some {parse : Bytes → Option (List (Option PyStr))}
    {bs : Bytes} {r : PyStr × List PyStr}
    (h : directTier parse bs = some r) :
    ∃ raw, parse bs = some raw ∧ checkPages (truthyPages raw) = some r := by
  unfold directTier at h
  cases hp : parse bs with
  | none => rw [hp] at h; cases h
  | some raw => rw [hp] at h; exact ⟨raw, rfl, h⟩

lemma ocrTier_fst_eq_some {L : Libs} {bs : Bytes} {r : PyStr × List PyStr}
    (h : (ocrTier L bs).fst = some r) :
    ∃ pages, checkPages pages = some r := by
  unfold ocrTier at h
  split at h
  · cases h
  · split at h
    · simp at h
    · exact ⟨_, h⟩

lemma extract_from_pdf_fst_checkPages {L : Libs} {bs : Bytes}
    {r : PyStr × List PyStr} (h : (extract_from_pdf L bs).fst = some r) :
    ∃ pages, checkPages pages = some r := by
  unfold extract_from_pdf at h
  cases h1 : directTier L.plumber bs with
  | some r1 =>
    rw [h1] at h
    simp at h
    obtain ⟨raw, _, hcp⟩ := directTier_eq_some (h ▸ h1)
    exact ⟨truthyPages raw, hcp⟩
  | none =>
    rw [h1] at h
    cases h2 : directTier L.pypdf bs with
    | some r2 =>
      rw [h2] at h
      simp at h
      obtain ⟨raw, _, hcp⟩ := directTier_eq_some (h ▸ h2)
      exact ⟨truthyPages raw, hcp⟩
    | none =>
      rw [h2] at h
      cases h3 : (L.pikepdf bs).bind fun rb => directTier L.plumber rb with
      | some r3 =>
        rw [h3] at h
        simp at h
        subst h
        obtain ⟨rb, _, hdt⟩ := Option.bind_eq_some.mp h3
        obtain ⟨raw, _, hcp⟩ := directTier_eq_some hdt
        exact ⟨truthyPages raw, hcp⟩
      | none =>
        rw [h3] at h
        exact ocrTier_fst_eq_some h

lemma txt_isSome (bs : Bytes) : (extract_from_txt bs).isSome := by
  unfold extract_from_txt
  cases utf8Decode bs <;> simp

lemma csv_isSome (bs : Bytes) : (extract_from_csv bs).isSome := by
  unfold extract_from_csv
  cases utf8Decode bs <;> simp

lemma foldl_append_eq_join {α β : Type} (f : α → List β) (l : List α) :
    ∀ init : List β,
      l.foldl (fun acc x => acc ++ f x) init = init ++ (l.map f).flatten := by
  induction l with
  | nil => intro init; simp
  | cons x xs ih =>
    intro init
    simp only [List.foldl_cons, List.map_cons, List.flatten]
    rw [ih (init ++ f x)]
    simp [List.append_assoc]

lemma lookupStore_storeInsert_ne (st : Store) (k k' : PyStr) (v : Entry)
    (hne : k' ≠ k) :
    lookupStore (storeInsert st k' v) k = lookupStore st k := by
  induction st with
  | nil => simp [storeInsert, lookupStore, hne]
  | cons e t ih =>
    obtain ⟨ek, ev⟩ := e
    by_cases hek : ek = k'
    · subst hek
      rw [storeInsert, if_pos rfl]
      rw [lookupStore, lookupStore, if_neg hne, if_neg hne]
    · rw [storeInsert, if_neg hek]
      by_cases hk : ek = k
      · rw [lookupStore, if_pos hk, lookupStore, if_pos hk]
      · rw [lookupStore, if_neg hk, lookupStore, if_neg hk]
        exact ih

lemma hasKey_of_lookup {st : Store} {k : PyStr} {v : Entry}
    (h : lookupStore st k = some v) : hasKey st k = true := by
  induction st with
  | nil => simp [lookupStore] at h
  | cons e t ih =>
    obtain ⟨ek, ev⟩ := e
    unfold hasKey
    rw [List.any_cons]
    by_cases hk : ek = k
    · simp [hk]
    · rw [lookupStore, if_neg hk] at h
      have ht := ih h
      unfold hasKey at ht
      rw [ht]
      simp

lemma processOne_preserve (L : Libs) (acc : Store) (f : PyStr × Bytes)
    (k : PyStr) (hne : f.1 ≠ k) :
    lookupStore (processOne L acc f) k = lookupStore acc k := by
  unfold processOne
  split
  · split
    · exact lookupStore_storeInsert_ne acc k f.1 _ hne
    · rfl
  · rfl

lemma foldl_processOne_preserve (L : Libs) (k : PyStr) (v : Entry) :
    ∀ (fl : List (PyStr × Bytes)) (acc : Store),
      lookupStore acc k = some v → (∀ f ∈ fl, f.1 ≠ k) →
      lookupStore (fl.foldl (processOne L) acc) k = some v := by
  intro fl
  induction fl with
  | nil => intro acc h _; simpa using h
  | cons f ft ih =>
    intro acc h hall
    rw [List.foldl_cons]
    apply ih
    · rw [processOne_preserve L acc f k (hall f (List.mem_cons_self f ft))]
      exact h
    · intro g hg; exact hall g (List.mem_cons_of_mem f hg)

lemma processUpload_preserve (L : Libs) (st : Store)
    (files : List (PyStr × Bytes)) (k : PyStr) (v : Entry)
    (h : lookupStore st k = some v) :
    lookupStore (processUpload L st files) k = some v := by
  unfold processUpload
  apply foldl_processOne_preserve L k v _ st h
  intro f hf
  have hfk : (!(hasKey st f.1)) = true := (List.mem_filter.mp hf).2
  intro heq
  rw [heq] at hfk
  rw [hasKey_of_lookup h] at hfk
  simp at hfk

lemma ocrLoop_total (ocrP : Img → Option (List PyStr)) (uok : Img → Bool) :
    ∀ imgs : List Img, (∀ i ∈ imgs, ocrP i ≠ none) →
      ocrLoop ocrP uok imgs =
        (some (imgs.map fun i => pyJoin [nlc] ((ocrP i).getD [])),
         imgs.filter fun i => !(uok i)) := by
  intro imgs
  induction imgs with
  | nil => intro _; rfl
  | cons i rest ih =>
    intro h
    obtain ⟨lines, hl⟩ :
        ∃ lines, ocrP i = some lines := by
      cases hp : ocrP i with
      | none => exact absurd hp (h i (List.mem_cons_self i rest))
      | some lines => exact ⟨lines, rfl⟩
    rw [ocrLoop, hl]
    rw [ih fun j hj => h j (List.mem_cons_of_mem i hj)]
    simp only [List.map_cons, List.filter_cons, hl, Option.getD_some]
    cases hu : uok i <;> simp [hu]

lemma ocrLoop_abort (ocrP : Img → Option (List PyStr)) (uok : Img → Bool) :
    ∀ (pre : List Img) (bad : Img) (post : List Img),
      (∀ i ∈ pre, ocrP i ≠ none) → ocrP bad = none →
      ocrLoop ocrP uok (pre ++ bad :: post) =
        (none, (pre.filter fun i => !(uok i)) ++ [bad]) := by
  intro pre
  induction pre with
  | nil =>
    intro bad post _ hbad
    rw [List.nil_append, ocrLoop, hbad]
    simp
  | cons i pr ih =>
    intro bad post hpre hbad
    obtain ⟨lines, hl⟩ :
        ∃ lines, ocrP i = some lines := by
      cases hp : ocrP i with
      | none => exact absurd hp (hpre i (List.mem_cons_self i pr))
      | some lines => exact ⟨lines, rfl⟩
    rw [List.cons_append, ocrLoop, hl]
    rw [ih bad post (fun j hj => hpre j (List.mem_cons_of_mem i hj)) hbad]
    simp only [List.filter_cons, hl]
    cases hu : uok i <;> simp [hu]

lemma firstSuccess_isSome (L : Libs) (bs : Bytes) :
    (firstSuccess (extractorTable L) bs).isSome := by
  have h := txt_isSome bs
  rw [extractorTable, firstSuccess]
  cases hx : extract_from_txt bs with
  | some r => simp
  | none => rw [hx] at h; simp at h

lemma fallbackScan_fst_isSome (L : Libs) (bs : Bytes) :
    (fallbackScan L bs).fst.isSome := by
  unfold fallbackScan
  cases hf : firstSuccess (extractorTable L) bs with
  | some p => obtain ⟨r, label⟩ := p; simp
  | none =>
    have := firstSuccess_isSome L bs
    rw [hf] at this
    simp at this

/-- A text of sixty `a` characters, comfortably over the 50-character
success threshold. -/
def t60 : PyStr := List.replicate 60 'a'

/-- A library record on which every external call raises (and deletion
always succeeds). -/
def noneL : Libs where
  plumber := fun _ => none
  pypdf := fun _ => none
  pikepdf := fun _ => none
  convert := fun _ => none
  ocrPage := fun _ => none
  unlinkOk := fun _ => true
  docxParas := fun _ => none
  pptxSlides := fun _ => none
  xlsxSheets := fun _ => none
  htmlText := fun _ => none
  rtfToText := fun _ => none
  epubChapters := fun _ => none

/-- A library record on which pdfplumber finds a 60-character text layer. -/
def Ldirect : Libs := { noneL with plumber := fun _ => some [some t60] }

/-- A library record on which only OCR succeeds: both parsers and repair
raise, rasterization yields one page whose recognition reads sixty
characters. -/
def Locr : Libs :=
  { noneL with convert := fun _ => some [1], ocrPage := fun _ => some [t60] }

/-- A library record on which pdfplumber always fails, PyPDF2 succeeds
only on the repaired bytes `[1]`, and pikepdf repairs the original bytes
`[0]` into `[1]`. -/
def L2 : Libs :=
  { noneL with
    pypdf := fun b => if b = [1] then some [some t60] else none,
    pikepdf := fun b => if b = [0] then some [1] else none }

/-- A library record on which the direct and repair tiers raise,
rasterization of `[2]` yields two pages, recognition raises on the first
page and reads sixty characters on the second. -/
def L4 : Libs :=
  { noneL with
    convert := fun b => if b = [2] then some [1, 2] else none,
    ocrPage := fun i => if i = 2 then some [t60] else none }

lemma txt_join {bs : Bytes} {t : PyStr} {secs : List PyStr}
    (h : extract_from_txt bs = some (t, secs)) : t = pyJoin nn secs := by
  unfold extract_from_txt at h
  cases hu : utf8Decode bs <;> rw [hu] at h <;> simp at h <;>
    obtain ⟨h1, h2⟩ := h <;> subst h1 <;> subst h2 <;> rfl

lemma md_join {bs : Bytes} {t : PyStr} {secs : List PyStr}
    (h : extract_from_md bs = some (t, secs)) : t = pyJoin nn secs := by
  unfold extract_from_md at h
  cases hu : utf8Decode bs <;> rw [hu] at h
  · cases h
  · simp at h
    obtain ⟨h1, h2⟩ := h
    subst h1; subst h2; rfl

lemma csv_join {bs : Bytes} {t : PyStr} {secs : List PyStr}
    (h : extract_from_csv bs = some (t, secs)) : t = pyJoin [nlc] secs := by
  unfold extract_from_csv at h
  cases hu : utf8Decode bs <;> rw [hu] at h <;> simp at h <;>
    obtain ⟨h1, h2⟩ := h <;> subst h1 <;> subst h2 <;>
    exact (pyJoin_pySplit nlc _).symm

lemma rtf_join {L : Libs} {bs : Bytes} {t : PyStr} {secs : List PyStr}
    (h : extract_from_rtf L bs = some (t, secs)) : t = pyJoin [nlc] secs := by
  unfold extract_from_rtf at h
  split at h
  · cases h
  · split at h
    · cases h
    · simp at h
      obtain ⟨h1, h2⟩ := h
      subst h1; subst h2
      exact (pyJoin_pySplit nlc _).symm

lemma docx_join {L : Libs} {bs : Bytes} {t : PyStr} {secs : List PyStr}
    (h : extract_from_docx L bs = some (t, secs)) : t = pyJoin nn secs := by
  unfold extract_from_docx at h
  cases hd : L.docxParas bs <;> rw [hd] at h
  · cases h
  · simp at h
    obtain ⟨h1, h2⟩ := h
    subst h1; subst h2; rfl

lemma pptx_join {L : Libs} {bs : Bytes} {t : PyStr} {secs : List PyStr}
    (h : extract_from_pptx L bs = some (t, secs)) : t = pyJoin nn secs := by
  unfold extract_from_pptx at h
  cases hd : L.pptxSlides bs <;> rw [hd] at h
  · cases h
  · simp at h
    obtain ⟨h1, h2⟩ := h
    subst h1; subst h2; rfl

lemma xlsx_join {L : Libs} {bs : Bytes} {t : PyStr} {secs : List PyStr}
    (h : extract_from_xlsx L bs = some (t, secs)) : t = pyJoin nn secs := by
  unfold extract_from_xlsx at h
  cases hd : L.xlsxSheets bs <;> rw [hd] at h
  · cases h
  · simp at h
    obtain ⟨h1, h2⟩ := h
    subst h1; subst h2; rfl

lemma html_join {L : Libs} {bs : Bytes} {t : PyStr} {secs : List PyStr}
    (h : extract_from_html L bs = some (t, secs)) : t = pyJoin nn secs := by
  unfold extract_from_html at h
  split at h
  · cases h
  · split at h
    · cases h
    · simp at h
      obtain ⟨h1, h2⟩ := h
      subst h1; subst h2; rfl

lemma epub_join {L : Libs} {bs : Bytes} {t : PyStr} {secs : List PyStr}
    (h : extract_from_epub L bs = some (t, secs)) : t = pyJoin nn secs := by
  unfold extract_from_epub at h
  cases hd : L.epubChapters bs <;> rw [hd] at h
  · cases h
  · simp at h
    obtain ⟨h1, h2⟩ := h
    subst h1; subst h2; rfl

lemma pdf_join_pos {L : Libs} {bs : Bytes} {t : PyStr} {secs : List PyStr}
    (h : (extract_from_pdf L bs).fst = some (t, secs)) :
    t = pyJoin nn secs ∧ 0 < (pyStrip t).length := by
  obtain ⟨pages, hcp⟩ := extract_from_pdf_fst_checkPages h
  obtain ⟨ht, hsecs, _, hlen⟩ := checkPages_eq_some hcp
  subst hsecs
  subst ht
  exact ⟨rfl, pyStrip_nn_pos hlen⟩

/-- C1 (amended): for every extractor and every byte input, a successful
extraction's section list joined with that document type's fixed
separator (a blank line, or a newline for the line-sectioned CSV and RTF
extractors) reconstructs the full text exactly; for PDF-pipeline results
the trimmed full text is moreover non-empty, enforced by the
50-character threshold. Non-PDF extractors may succeed with empty
trimmed text. -/
theorem extractors_join_reconstruction (L : Libs) (bs : Bytes) :
    (∀ t secs, extract_from_txt bs = some (t, secs) → t = pyJoin nn secs) ∧
    (∀ t secs, extract_from_md bs = some (t, secs) → t = pyJoin nn secs) ∧
    (∀ t secs, extract_from_csv bs = some (t, secs) → t = pyJoin [nlc] secs) ∧
    (∀ t secs, extract_from_rtf L bs = some (t, secs) → t = pyJoin [nlc] secs) ∧
    (∀ t secs, extract_from_docx L bs = some (t, secs) → t = pyJoin nn secs) ∧
    (∀ t secs, extract_from_pptx L bs = some (t, secs) → t = pyJoin nn secs) ∧
    (∀ t secs, extract_from_xlsx L bs = some (t, secs) → t = pyJoin nn secs) ∧
    (∀ t secs, extract_from_html L bs = some (t, secs) → t = pyJoin nn secs) ∧
    (∀ t secs, extract_from_epub L bs = some (t, secs) → t = pyJoin nn secs) ∧
    (∀ t secs, (extract_from_pdf L bs).fst = some (t, secs) →
      t = pyJoin nn secs ∧ 0 < (pyStrip t).length) :=
  ⟨fun _ _ h => txt_join h,
   fun _ _ h => md_join h,
   fun _ _ h => csv_join h,
   fun _ _ h => rtf_join h,
   fun _ _ h => docx_join h,
   fun _ _ h => pptx_join h,
   fun _ _ h => xlsx_join h,
   fun _ _ h => html_join h,
   fun _ _ h => epub_join h,
   fun _ _ h => pdf_join_pos h⟩

/-- Witness for C1: instantiating the theorem at concrete inputs. -/
theorem extractors_join_reconstruction_witness :
    pys "h" = pyJoin nn [pys "h"] ∧
    (t60 = pyJoin nn [t60] ∧ 0 < (pyStrip t60).length) := by
  have h := extractors_join_reconstruction Ldirect [104]
  exact ⟨h.1 (pys "h") [pys "h"] (by decide),
         h.2.2.2.2.2.2.2.2.2 t60 [t60] (by decide)⟩

/-- Counterexample for C1 as stated: on empty input the TXT extractor
succeeds, yet the trimmed full text is empty. -/
theorem txt_empty_success_cx :
    extract_from_txt ([] : Bytes) = some (([] : PyStr), [([] : PyStr)]) ∧
    (pyStrip ([] : PyStr)).length = 0 :=
  ⟨rfl, rfl⟩

/-- C2 (amended): the pipeline's actual tier sequence is pdfplumber, then
PyPDF2, then a single pikepdf repair after which only pdfplumber is
re-run on the repaired bytes, then OCR on the original bytes only; there
is no second repair strategy and no OCR pass over repaired bytes before
exhaustion. -/
theorem pdf_tier_sequence_amended (L : Libs) (bs : Bytes) :
    (extract_from_pdf L bs).fst =
      firstSome
        [ directTier L.plumber bs,
          directTier L.pypdf bs,
          (L.pikepdf bs).bind fun rb => directTier L.plumber rb,
          (ocrTier L bs).fst ] := by
  unfold extract_from_pdf firstSome
  cases h1 : directTier L.plumber bs with
  | some r => simp [List.findSome?]
  | none =>
    cases h2 : directTier L.pypdf bs with
    | some r => simp [List.findSome?]
    | none =>
      cases h3 : (L.pikepdf bs).bind fun rb => directTier L.plumber rb with
      | some r => simp [List.findSome?]
      | none =>
        cases h4 : (ocrTier L bs).fst with
        | some r => simp [List.findSome?, h4]
        | none => simp [List.findSome?, h4]

/-- Counterexample for C2 as stated: with pdfplumber always failing,
pikepdf repairing `[0]` into `[1]`, and PyPDF2 succeeding on the repaired
bytes, the code reports exhaustion even though the claimed re-run of the
second direct tier on the repaired bytes would succeed (as the
spec-modelled pipeline shows). -/
theorem pdf_tier_sequence_cx :
    (extract_from_pdf L2 [0]).fst = none ∧
    specPdfPipeline L2 (fun _ => none) [0] = some (t60, [t60]) ∧
    directTier L2.pypdf [1] = some (t60, [t60]) := by
  refine ⟨by decide, by decide, by decide⟩

/-- C3: when pdfplumber parses the original bytes and the kept page texts
are non-empty with trimmed concatenation longer than 50 characters, the
pipeline returns exactly that tier's result, for every behaviour of the
later tiers (PyPDF2, repair, OCR): no later tier is consulted, so a PDF
with an extractable text layer never yields an OCR-produced result. -/
theorem pdf_first_tier_wins (L M : Libs) (bs : Bytes)
    (raw : List (Option PyStr))
    (hpl : M.plumber = L.plumber)
    (hparse : L.plumber bs = some raw)
    (hne : truthyPages raw ≠ [])
    (hlen : 50 < (pyStrip (pyJoin [] (truthyPages raw))).length) :
    (extract_from_pdf M bs).fst =
      some (pyJoin nn (truthyPages raw), truthyPages raw) := by
  have hdt : directTier M.plumber bs =
      some (pyJoin nn (truthyPages raw), truthyPages raw) := by
    rw [hpl]
    unfold directTier
    rw [hparse, Option.some_bind]
    unfold checkPages
    rw [if_pos ⟨hne, hlen⟩]
  unfold extract_from_pdf
  rw [hdt]

/-- Witness for C3 at a concrete one-page text layer. -/
theorem pdf_first_tier_wins_witness :
    (extract_from_pdf Ldirect [0]).fst =
      some (pyJoin nn (truthyPages [some t60]), truthyPages [some t60]) :=
  pdf_first_tier_wins Ldirect Ldirect [0] [some t60] rfl rfl
    (by decide) (by decide)

/-- C4 (amended): during the OCR tier, a page whose recognition returns
normally has deletion of its transient file attempted immediately (the
file survives only if `os.unlink` itself fails, whose error is
swallowed), and an empty recognition result yields an empty section
without aborting; but a page whose recognition raises leaves its own
transient file undeleted and aborts the whole OCR tier, discarding every
page collected so far. -/
theorem ocr_cleanup_amended (ocrP : Img → Option (List PyStr))
    (uok : Img → Bool) (imgs : List Img) :
    ((∀ i ∈ imgs, ocrP i ≠ none) →
      ocrLoop ocrP uok imgs =
        (some (imgs.map fun i => pyJoin [nlc] ((ocrP i).getD [])),
         imgs.filter fun i => !(uok i))) ∧
    (∀ pre bad post, imgs = pre ++ bad :: post →
      (∀ i ∈ pre, ocrP i ≠ none) → ocrP bad = none →
      ocrLoop ocrP uok imgs =
        (none, (pre.filter fun i => !(uok i)) ++ [bad])) := by
  constructor
  · exact ocrLoop_total ocrP uok imgs
  · intro pre bad post heq hpre hbad
    rw [heq]
    exact ocrLoop_abort ocrP uok pre bad post hpre hbad

/-- Witness for C4 at concrete inputs: a fully successful two-page loop,
and a loop aborted by its first page. -/
theorem ocr_cleanup_witness :
    ocrLoop Locr.ocrPage Locr.unlinkOk [1, 2] =
      (some ([1, 2].map fun i => pyJoin [nlc] ((Locr.ocrPage i).getD [])),
       [1, 2].filter fun i => !(Locr.unlinkOk i)) ∧
    ocrLoop L4.ocrPage L4.unlinkOk ([] ++ 1 :: [2]) =
      (none, (([] : List Img).filter fun i => !(L4.unlinkOk i)) ++ [1]) := by
  constructor
  · exact (ocr_cleanup_amended Locr.ocrPage Locr.unlinkOk [1, 2]).1
      (by decide)
  · exact (ocr_cleanup_amended L4.ocrPage L4.unlinkOk ([] ++ 1 :: [2])).2
      [] 1 [2] rfl (by decide) (by decide)

/-- Counterexample for C4 as stated: on `L4` the first page's recognition
raises, its transient file `1` is left undeleted, and the whole document
fails even though the second page alone reads sixty characters. -/
theorem ocr_cleanup_cx :
    extract_from_pdf L4 [2] = (none, [1]) ∧
    L4.ocrPage 2 = some [t60] ∧
    50 < (pyStrip t60).length := by
  refine ⟨by decide, by decide, by decide⟩

/-- C5 (amended): the method label attached by the dispatcher is the file
format's canonical label (possibly suffixed " (auto-detected)" on the
fallback path), not a tier identifier: any filename with extension `pdf`
whose pipeline succeeds is labelled exactly "PDF", whichever tier
produced the result, so OCR-produced and text-layer results are not
distinguishable by label. -/
theorem method_label_format (L : Libs) (f : PyStr) (bs : Bytes)
    (r : PyStr × List PyStr)
    (hext : extOf f = pys "pdf")
    (hr : (extract_from_pdf L bs).fst = some r) :
    extract_text_from_document L f bs = (some r, pys "PDF") := by
  unfold extract_text_from_document
  rw [hext]
  have hlk : tblLookup (extractorTable L) (pys "pdf") =
      some (pys "PDF", fun b => (extract_from_pdf L b).fst) := by
    rfl
  rw [hlk]
  simp only
  rw [hr]

/-- Witness for C5's amended statement at a concrete text-layer PDF. -/
theorem method_label_format_witness :
    extract_text_from_document Ldirect (pys "doc.pdf") [0] =
      (some (t60, [t60]), pys "PDF") :=
  method_label_format Ldirect (pys "doc.pdf") [0] (t60, [t60])
    (by decide) (by decide)

/-- Counterexample for C5 as stated: an OCR-produced result and a
text-layer result both carry the same label "PDF"; no tier information
distinguishes them. -/
theorem method_label_cx :
    extract_text_from_document Locr (pys "scan.pdf") [0] =
      (some (t60, [t60]), pys "PDF") ∧
    extract_text_from_document Ldirect (pys "doc.pdf") [0] =
      (some (t60, [t60]), pys "PDF") := by
  refine ⟨by decide, by decide⟩

/-- C6 (amended): in single-document mode a context of at most 20,000
characters is passed verbatim, and a longer context is passed as exactly
its first 20,000 characters followed by the truncation marker (which
coincides with the full text only in the degenerate case where the full
text is itself its own 20,000-character prefix followed by the marker). -/
theorem single_doc_context (c : PyStr) :
    (c.length ≤ 20000 → assembleContext c = c) ∧
    (20000 < c.length →
      assembleContext c = c.take 20000 ++ truncMarker) := by
  constructor
  · intro h
    unfold assembleContext
    rw [if_neg (Nat.not_lt.mpr h)]
  · intro h
    unfold assembleContext
    rw [if_pos h]

/-- Witness for C6 on a short concrete context. -/
theorem single_doc_context_witness : assembleContext (pys "q") = pys "q" :=
  (single_doc_context (pys "q")).1 (by decide)

/-- The 20,020-character context that is its own truncation: 20,000 `a`
characters followed by the truncation marker. -/
def c6input : PyStr := List.replicate 20000 'a' ++ truncMarker

/-- Counterexample for C6's "never the full text": `c6input` exceeds the
budget, yet the context passed to the QA call is the full text itself. -/
theorem single_doc_context_cx :
    20000 < c6input.length ∧ assembleContext c6input = c6input := by
  have hm : truncMarker.length = 21 := rfl
  have hlen : c6input.length = 20021 := by
    rw [c6input, List.length_append, List.length_replicate, hm]
  constructor
  · rw [hlen]; norm_num
  · unfold assembleContext
    rw [if_pos (by rw [hlen]; norm_num)]
    have htake : c6input.take 20000 = List.replicate 20000 'a' := by
      rw [c6input, List.take_append_eq_append_take, List.length_replicate]
      rw [Nat.sub_self, List.take_zero, List.append_nil]
      rw [List.take_replicate, Nat.min_self]
    rw [htake]
    rfl

/-- C7: in multi-document mode each per-document block is a header naming
the file followed by at most the first 5,000 characters of its text; the
blocks are concatenated in order and only the combined string is
truncated to 20,000 characters with the marker appended when it exceeds
the budget. -/
theorem multi_doc_context (docs : List (PyStr × PyStr)) :
    assembleMulti docs =
      (if 20000 < ((docs.map docBlock).flatten).length
       then ((docs.map docBlock).flatten).take 20000 ++ truncMarker
       else (docs.map docBlock).flatten) ∧
    (∀ fc ∈ docs,
      docBlock fc =
        pys "\n\n=== " ++ fc.1 ++ pys " ===\n" ++ fc.2.take 5000 ++ [nlc] ∧
      (fc.2.take 5000).length ≤ 5000) := by
  constructor
  · unfold assembleMulti
    rw [foldl_append_eq_join docBlock docs []]
    simp
  · intro fc _
    exact ⟨rfl, List.length_take_le 5000 fc.2⟩

/-- Witness for C7 on a concrete one-document selection. -/
theorem multi_doc_context_witness :
    docBlock (pys "a", pys "b") =
      pys "\n\n=== " ++ pys "a" ++ pys " ===\n" ++ (pys "b").take 5000 ++ [nlc] ∧
    ((pys "b").take 5000).length ≤ 5000 :=
  (multi_doc_context [(pys "a", pys "b")]).2 (pys "a", pys "b") (by simp)

/-- C8 (amended): the TXT and CSV extractors attempt UTF-8 and fall back
to Latin-1, which accepts any byte sequence, so they never fail and they
return the UTF-8 decoding whenever the input is valid UTF-8; the
Markdown extractor attempts UTF-8 only (no Latin-1 fallback) and
succeeds exactly on valid UTF-8 inputs. -/
theorem decode_fallback (bs : Bytes) :
    (extract_from_txt bs).isSome ∧
    (extract_from_csv bs).isSome ∧
    ((extract_from_md bs).isSome ↔ (utf8Decode bs).isSome) ∧
    (∀ t, utf8Decode bs = some t →
      extract_from_txt bs = some (t, [t]) ∧
      extract_from_csv bs = some (t, pySplit nlc t) ∧
      extract_from_md bs = some (t, [t])) := by
  refine ⟨txt_isSome bs, csv_isSome bs, ?_, ?_⟩
  · unfold extract_from_md
    cases utf8Decode bs <;> simp
  · intro t ht
    unfold extract_from_txt extract_from_csv extract_from_md
    rw [ht]
    exact ⟨rfl, rfl, rfl⟩

/-- Witness for C8 at the single-byte UTF-8 input `h`. -/
theorem decode_fallback_witness :
    extract_from_txt [104] = some (pys "h", [pys "h"]) ∧
    extract_from_csv [104] = some (pys "h", pySplit nlc (pys "h")) ∧
    extract_from_md [104] = some (pys "h", [pys "h"]) :=
  (decode_fallback [104]).2.2.2 (pys "h") (by decide)

/-- Counterexample for C8 as stated: the byte `0xFF` decodes under
Latin-1 (and the TXT extractor accordingly succeeds on it), yet the
Markdown extractor fails on it — it has no Latin-1 fallback. -/
theorem md_no_latin1_cx :
    extract_from_md [(255 : Fin 256)] = none ∧
    latin1Decode [(255 : Fin 256)] = [Char.ofNat 255] ∧
    (extract_from_txt [(255 : Fin 256)]).isSome := by
  refine ⟨by decide, by decide, by decide⟩

/-- C9 (amended): the processed-document store is idempotent for
already-processed filenames: a batch whose filenames are all already
present leaves the store unchanged for every extractor behaviour (so
nothing is re-processed), and an entry present in the store when a batch
— or any sequence of batches — starts is never mutated or removed.
(Append-only-ness stops at batch boundaries: inside one batch a second
file with the same not-yet-stored name overwrites the entry the first
inserted, see the counterexample.) -/
theorem store_idempotent_preserve (L : Libs) (st : Store)
    (files : List (PyStr × Bytes)) :
    ((∀ f ∈ files, hasKey st f.1 = true) → processUpload L st files = st) ∧
    (∀ k v, lookupStore st k = some v →
      lookupStore (processUpload L st files) k = some v) ∧
    (∀ batches k v, lookupStore st k = some v →
      lookupStore (processSession L st batches) k = some v) := by
  refine ⟨?_, ?_, ?_⟩
  · intro hall
    unfold processUpload
    have hnil : files.filter (fun f => !(hasKey st f.1)) = [] := by
      rw [List.filter_eq_nil_iff]
      intro f hf
      rw [hall f hf]
      simp
    rw [hnil]
    rfl
  · intro k v h
    exact processUpload_preserve L st files k v h
  · intro batches
    unfold processSession
    induction batches generalizing st with
    | nil => intro k v h; simpa using h
    | cons b bt ih =>
      intro k v h
      rw [List.foldl_cons]
      exact ih (processUpload L st b) k v
        (processUpload_preserve L st b k v h)

/-- Witness for C9: re-submitting an already-stored filename is a no-op
and preserves the stored entry. -/
theorem store_idempotent_witness :
    processUpload noneL [(pys "a", ⟨pys "x", [pys "x"], 1, pys "TXT"⟩)]
        [(pys "a", [0])] =
      [(pys "a", ⟨pys "x", [pys "x"], 1, pys "TXT"⟩)] ∧
    lookupStore
        (processUpload noneL [(pys "a", ⟨pys "x", [pys "x"], 1, pys "TXT"⟩)]
          [(pys "a", [0])])
        (pys "a") = some ⟨pys "x", [pys "x"], 1, pys "TXT"⟩ := by
  have h := store_idempotent_preserve noneL
    [(pys "a", ⟨pys "x", [pys "x"], 1, pys "TXT"⟩)] [(pys "a", [0])]
  exact ⟨h.1 (by decide), h.2.1 (pys "a") ⟨pys "x", [pys "x"], 1, pys "TXT"⟩ (by decide)⟩

/-- Counterexample for C9 as stated: one batch holding two files that
share the not-yet-stored name "a". Processing the first alone inserts
the entry extracted from its bytes; processing the whole batch ends with
the same key bound to a different entry — the dict assignment of the
second file overwrote the entry the first file's processing inserted, so
an inserted entry was mutated within the session. -/
theorem store_overwrite_cx :
    processUpload noneL [] [(pys "a", [104])] =
      [(pys "a", ⟨pys "h", [pys "h"], 1, pys "TXT (auto-detected)"⟩)] ∧
    processUpload noneL [] [(pys "a", [104]), (pys "a", [105])] =
      [(pys "a", ⟨pys "i", [pys "i"], 1, pys "TXT (auto-detected)"⟩)] ∧
    (⟨pys "h", [pys "h"], 1, pys "TXT (auto-detected)"⟩ : Entry) ≠
      ⟨pys "i", [pys "i"], 1, pys "TXT (auto-detected)"⟩ := by
  refine ⟨by decide, by decide, by decide⟩

/-- C10: for every byte input the TXT and CSV extractors succeed (Latin-1
decoding is total), the fallback scan over the registered extractors
always finds a successful one, and the dispatcher's terminal failure
result tagged "failed" is unreachable for any filename and input. -/
theorem dispatcher_never_fails (L : Libs) (f : PyStr) (bs : Bytes) :
    (extract_from_txt bs).isSome ∧
    (extract_from_csv bs).isSome ∧
    (firstSuccess (extractorTable L) bs).isSome ∧
    (extract_text_from_document L f bs).fst.isSome ∧
    extract_text_from_document L f bs ≠ (none, pys "failed") := by
  have hmain : (extract_text_from_document L f bs).fst.isSome := by
    unfold extract_text_from_document
    split
    · split
      · simp
      · exact fallbackScan_fst_isSome L bs
    · exact fallbackScan_fst_isSome L bs
  refine ⟨txt_isSome bs, csv_isSome bs, firstSuccess_isSome L bs, hmain, ?_⟩
  intro he
  rw [he] at hmain
  simp at hmain
